import Mathlib

/-!
Verification development for `src/tools/shuffle_tfrecords_beam_for_local.py`:
a Beam pipeline that shuffles TFRecord files, optionally pre-partitioning
the input into hash buckets, shuffling each bucket independently, merging
the intermediate shards into the final output, optionally writing a dataset
summary, and then cleaning up intermediates.

The Python program is embedded shallowly:
  * a record (tf.Example payload) is an opaque byte string, modelled as
    `List Nat`;
  * the Beam substrate's primitives are determinised: `Flatten` and reads
    concatenate in the listed order, `GroupByKey` emits groups ordered by
    key (the emission order of a real runner depends on the key, never on
    input position) with each group's values kept in input order, and
    `Count.Globally` counts the elements of the collection;
  * the filesystem is an explicit state (`FS`) threaded through the
    orchestration; `glob` is modelled by a matcher supporting the `?`
    wildcard (the only wildcard in the patterns this program globs);
  * the cryptographic digests from `hashlib` (`blake2b`, `sha1`) are
    library code external to the repository and are taken as parameters
    (`digestFn`, `keyFn`); everything the source does *around* them is
    embedded literally.
-/

/-- A record: an opaque byte string (list of byte values). -/
abbrev Rec : Type := List Nat

/-! ## Glob matching (model of Python `glob.glob` patterns used here)

Every glob pattern this program builds uses only literal characters and
the wildcard `?` (exactly one character): `partition????-00000-of-00001…`
and `…_partition<i>-?????-of-?????.tfrecord.gz`. -/

/-- Does glob pattern `p` match string `s`?  `?` matches exactly one
character, any other pattern character matches itself. -/
def globMatch : List Char → List Char → Bool
  | [], [] => true
  | [], _ :: _ => false
  | _ :: _, [] => false
  | p :: ps, s :: ss => (p = '?' || p = s) && globMatch ps ss

/-! ## Command-line argument model (`parse_cmdline`) -/

/-- The "known" arguments of `parse_cmdline` (the argparse flags).
`num_buckets` is an `Int` because argparse's `type=int` admits negative
values; optional string flags are `Option String` (absent = `none`). -/
structure KnownArgs where
  input_pattern_list : String
  output_pattern_prefix : String
  output_dataset_config_pbtxt : Option String := none
  output_dataset_name : Option String := none
  num_buckets : Int := 1
  pre_partition : Bool := false
  pre_partition_workdir : Option String := none
  debug : Bool := false
  deriving DecidableEq, Repr

/-- Python truthiness of an optional string flag: `None` and `""` are
falsy, any other string truthy. -/
def truthyOpt : Option String → Bool
  | none => false
  | some s => !(s == "")

/-- Model of `parse_cmdline`'s validation: when `--pre_partition` is set,
the two `assert` statements require a working directory and a positive
bucket count (a failed `assert` raises `AssertionError`, modelled as
`Except.error` carrying the assertion message). -/
def parse_cmdline (a : KnownArgs) : Except String KnownArgs :=
  if a.pre_partition then
    if a.pre_partition_workdir.isNone then
      .error "Provide working directory for pre-partition"
    else if ¬ (a.num_buckets > 0) then
      .error "Minimum of one bucket should be provided for pre-partition"
    else .ok a
  else .ok a

/-! ## Hash bucketing (`partition`) -/

/-- The accumulation loop inside `determine_hash`:
`for i, b in enumerate(digest): address += b * (2 ** (i * 8))`,
i.e. the digest bytes interpreted with byte `i` weighted by `2^(8*i)`. -/
def determine_hash_loop (digest : List Nat) : Nat :=
  digest.enum.foldl (fun address p => address + p.2 * 2 ^ (p.1 * 8)) 0

/-- `determine_hash`: the 4-byte `blake2b` digest (external `hashlib`
code, abstracted as `digestFn`) folded into an address by the loop above. -/
def determine_hash (digestFn : Rec → List Nat) (input_bytes : Rec) : Nat :=
  determine_hash_loop (digestFn input_bytes)

/-- `partition(example, num_buckets)`: the digest address reduced modulo
the bucket count.  (`example` is a Lean keyword, so the parameter is
named `ex`.) -/
def partition (digestFn : Rec → List Nat) (ex : Rec) (num_buckets : Nat) : Nat :=
  determine_hash digestFn ex % num_buckets

/-- Spec-side little-endian interpretation of a byte string: the value of
the bytes in base 256, first byte least significant.  Used to compare the
source's accumulation loop against the specification's wording. -/
def leNat : List Nat → Nat
  | [] => 0
  | b :: bs => b + 256 * leNat bs

theorem determine_hash_loop_acc (digest : List Nat) : ∀ i acc : Nat,
    (List.enumFrom i digest).foldl (fun address p => address + p.2 * 2 ^ (p.1 * 8)) acc
      = acc + 2 ^ (i * 8) * leNat digest := by
  induction digest with
  | nil => intro i acc; simp [leNat]
  | cons b bs ih =>
      intro i acc
      simp only [List.enumFrom, List.foldl_cons, leNat, ih]
      have h : (i + 1) * 8 = i * 8 + 8 := by ring
      rw [h, Nat.pow_add]
      ring

/-- The source's enumerate-and-accumulate loop computes exactly the
little-endian base-256 value of the digest bytes. -/
theorem determine_hash_loop_eq_leNat (digest : List Nat) :
    determine_hash_loop digest = leNat digest := by
  have h := determine_hash_loop_acc digest 0 0
  simpa [determine_hash_loop, List.enum] using h

/-! ## Splitting on commas (Python `str.split(",")`) -/

/-- Python `s.split(sep)` over characters: splits at every occurrence of
`sep`; the empty string yields `[[]]` (Python: `[""]`). -/
def splitChars (sep : Char) (cs : List Char) : List (List Char) :=
  cs.foldr
    (fun c acc =>
      if c = sep then [] :: acc
      else
        match acc with
        | [] => [[c]]
        | g :: gs => (c :: g) :: gs)
    [[]]

/-- Python `s.split(",")` on strings. -/
def pySplit (sep : Char) (s : String) : List String :=
  (splitChars sep s.data).map String.mk

/-! ## Filesystem model

Files and directories touched by the program, as explicit state.  A write
appends an entry (no path is written twice in any run of this program);
`glob` returns the matching file paths in creation order. -/

/-- Contents of a file: a TFRecord shard (list of records) or a text
file (the summary). -/
inductive FileContent where
  | recs (rs : List Rec)
  | text (s : List Char)
  deriving DecidableEq

/-- The records held by a file (a text file yields none). -/
def FileContent.records : FileContent → List Rec
  | .recs rs => rs
  | .text _ => []

/-- Filesystem state: existing directories and files with contents. -/
structure FS where
  dirs : List String
  files : List (String × FileContent)
  deriving DecidableEq

/-- `os.path.exists`: true for a known directory or file path. -/
def FS.pathExists (fs : FS) (p : String) : Bool :=
  fs.dirs.any (fun d => d == p) || fs.files.any (fun f => f.1 == p)

/-- `os.makedirs`. -/
def FS.makedirs (fs : FS) (p : String) : FS :=
  { fs with dirs := fs.dirs ++ [p] }

/-- Create a file with the given contents. -/
def FS.writeFile (fs : FS) (p : String) (c : FileContent) : FS :=
  { fs with files := fs.files ++ [(p, c)] }

/-- `glob.glob`: the file paths matching a pattern, in creation order. -/
def FS.glob (fs : FS) (pat : String) : List String :=
  (fs.files.map Prod.fst).filter (fun p => globMatch pat.data p.data)

/-- `os.remove` over every file matching a glob pattern (the cleanup
loop `for partial in glob.glob(pattern): os.remove(partial)`). -/
def FS.removeMatching (fs : FS) (pat : String) : FS :=
  { fs with files := fs.files.filter (fun f => !(globMatch pat.data f.1.data)) }

/-! ## Beam substrate models -/

/-- Records matching one `ReadFromTFRecord` pattern: the contents of the
matching files concatenated in creation order. -/
def readTFRecordPattern (fs : FS) (pat : String) : List Rec :=
  (fs.files.filter (fun f => globMatch pat.data f.1.data)).flatMap
    (fun f => f.2.records)

/-- `read_from_tfrecords_files`: one `ReadFromTFRecord` per pattern,
then `beam.Flatten` (modelled as concatenation in the listed order). -/
def read_from_tfrecords_files (fs : FS) (input_filename_pattern_list : List String) :
    List Rec :=
  input_filename_pattern_list.flatMap (readTFRecordPattern fs)

/-- The distinct keys of a keyed collection, in the emission order of the
grouping substrate (modelled as ascending key order: a runner's group
emission order depends on the key, never on input position). -/
def sortedKeys (pairs : List (Nat × Rec)) : List Nat :=
  List.insertionSort (· ≤ ·) (pairs.map Prod.fst).dedup

/-- `beam.GroupByKey`: all values sharing a key are collected into one
group (values in input order); groups are emitted in key order. -/
def groupByKey (pairs : List (Nat × Rec)) : List (Nat × List Rec) :=
  (sortedKeys pairs).map
    (fun k => (k, (pairs.filter (fun p => p.1 == k)).map Prod.snd))

/-- `shuffle_records`: map each record to `(sha1(record), record)`
(`sha1` is external `hashlib` code, abstracted as `keyFn`), group by the
digest key, and flatten the groups' value lists, dropping the key. -/
def shuffle_records (keyFn : Rec → Nat) (input_examples : List Rec) : List Rec :=
  (groupByKey (input_examples.map (fun x => (keyFn x, x)))).flatMap
    (fun g => g.2)

/-! ## Pre-partitioning (`pre_partition`) -/

/-- `"partition%04d" % i` (zero-padded to width 4). -/
def pad4 (i : Nat) : String :=
  let s := toString i
  String.mk (List.replicate (4 - s.length) '0') ++ s

/-- The path of partition file `i` inside the working directory
(`os.path.join(working_directory, "partition%04d")` plus the single-shard
suffix `-00000-of-00001` and `.tfrecord.gz` that `WriteToTFRecord`
appends). -/
def partitionFilePath (working_directory : String) (i : Nat) : String :=
  working_directory ++ "/partition" ++ pad4 i ++ "-00000-of-00001.tfrecord.gz"

/-- `pre_partition`: fail if the working directory already exists (the
`ValueError` is raised before any directory or file is created — the
state component of the result is the unchanged input state); otherwise
create it, split the input records into `num_buckets` buckets by
`beam.Partition(partition, num_buckets)`, write bucket `i` to
`partition%04d` inside the working directory, and return the glob of the
partition files produced. -/
def pre_partition (digestFn : Rec → List Nat) (fs : FS)
    (input_pattern : List String) (working_directory : String)
    (num_buckets : Nat) : FS × Except String (List String) :=
  if fs.pathExists working_directory then
    (fs, .error "Provide a clean working directory path directory")
  else
    let fs1 := fs.makedirs working_directory
    let input_data := read_from_tfrecords_files fs1 input_pattern
    let fs2 := (List.range num_buckets).foldl
      (fun acc i =>
        acc.writeFile (partitionFilePath working_directory i)
          (.recs (input_data.filter
            (fun r => partition digestFn r num_buckets == i))))
      fs1
    (fs2, .ok (fs2.glob
      (working_directory ++ "/partition????-00000-of-00001.tfrecord.gz")))

/-! ## Summary emitter (`MakeConfigStringCaller`, `write_summary_string_to_file`)

The config string is a triple-quoted template, `.format`-ed and passed
through `textwrap.dedent`.  The template is modelled at line granularity
(faithful provided the substituted dataset name and output prefix contain
no newline, which the relevant theorems assume). -/

/-- A space or tab. -/
def isWsChar (c : Char) : Bool := c = ' ' || c = '\t'

/-- A line consisting solely of whitespace (including the empty line). -/
def isWsOnly (l : List Char) : Bool := l.all isWsChar

/-- The leading whitespace of a line. -/
def leadingWs : List Char → List Char
  | [] => []
  | c :: rest => if isWsChar c then c :: leadingWs rest else []

/-- Longest common prefix of two character lists. -/
def commonPrefix : List Char → List Char → List Char
  | a :: as, b :: bs => if a = b then a :: commonPrefix as bs else []
  | _, _ => []

/-- `textwrap.dedent`'s margin: the longest common prefix of the leading
whitespace of every line containing a non-whitespace character. -/
def marginOf (lines : List (List Char)) : List Char :=
  match (lines.filter (fun l => !isWsOnly l)).map leadingWs with
  | [] => []
  | w :: ws => ws.foldl commonPrefix w

/-- Remove the margin from the front of a line (only when it is actually
a prefix, as `re.sub(r'(?m)^' + margin, '', text)` does). -/
def stripMargin (m l : List Char) : List Char :=
  if m.isPrefixOf l then l.drop m.length else l

/-- `textwrap.dedent` on a list of lines: whitespace-only lines become
empty, the common margin is stripped from the rest. -/
def dedentLines (lines : List (List Char)) : List (List Char) :=
  let m := marginOf lines
  lines.map (fun l => if isWsOnly l then ([] : List Char) else stripMargin m l)

/-- Join lines with newline characters. -/
def joinLines : List (List Char) → List Char
  | [] => []
  | [l] => l
  | l :: ls => l ++ '\n' :: joinLines ls

/-- The lines of the triple-quoted config template after `.format`:
an empty first line, then `name: "…"`, `tfrecord_path: "…-?????-of-?????.tfrecord.gz"`
and `num_examples: …` each indented four spaces, then a four-space line. -/
def configTemplateLines (name tfrecord_path : List Char) (num_examples : Nat) :
    List (List Char) :=
  [ [],
    "    name: \"".data ++ name ++ "\"".data,
    "    tfrecord_path: \"".data ++ tfrecord_path
      ++ "-?????-of-?????.tfrecord.gz\"".data,
    "    num_examples: ".data ++ (toString num_examples).data,
    "    ".data ]

/-- `MakeConfigStringCaller(name, prefix)(num_examples)`: the formatted
template, dedented. -/
def MakeConfigStringCaller (dataset_name tfrecord_path : List Char)
    (num_examples : Nat) : List Char :=
  joinLines (dedentLines (configTemplateLines dataset_name tfrecord_path num_examples))

/-- `COMMENT_HEADER.format(input_pattern_list, output_pattern_prefix)`. -/
def COMMENT_HEADER (input_pattern_list output_pattern_prefix : String) : List Char :=
  "# Generated by shuffle_tfrecords_beam.py\n#\n# --input_pattern_list=".data
    ++ input_pattern_list.data
    ++ "\n# --output_pattern_prefix=".data ++ output_pattern_prefix.data
    ++ "\n#\n".data

/-- `beam.combiners.Count.Globally()`: the number of elements of the
collection, computed by the substrate's distributed count aggregation. -/
def countGlobally (output_examples : List Rec) : Nat :=
  output_examples.length

/-- The text `write_summary_string_to_file` writes: the one-element
header collection and the one-element config collection (built from the
global count of the output examples) are flattened and joined by
`CombineGlobally(''.join)`. -/
def write_summary_string (output_examples : List Rec) (input_pattern_list : String)
    (dataset_name : String) ( output_pattern_prefix : String) : List Char :=
  let comment_str := [COMMENT_HEADER input_pattern_list output_pattern_prefix]
  let num_examples := countGlobally output_examples
  let config_str :=
    [MakeConfigStringCaller dataset_name.data output_pattern_prefix.data num_examples]
  let merged_strings := comment_str ++ config_str
  merged_strings.foldl (· ++ ·) []

/-! ## The `main` orchestration -/

/-- A dataflow execution (`beam.Pipeline` run) of the program. -/
inductive Stage where
  | prePart
  | shuffle (i : Nat)
  | merge
  deriving DecidableEq, Repr

/-- Result of a run of `main`: the dataflow executions that ran, the
final filesystem state, the outcome (an uncaught exception is
`Except.error`), and the record collection read back by the merge
pipeline (`[]` when the merge pipeline never ran). -/
structure MainResult where
  trace : List Stage
  fs : FS
  outcome : Except String Unit
  mergeInput : List Rec

/-- One iteration of `main`'s per-partition shuffle loop
(`for i, filename in enumerate(input_files): with beam.Pipeline() …`):
read the records matching `filename` (split on commas), shuffle them,
write them as the intermediate shard set `<prefix>_partition<i>-…`, and
record the shard set's glob pattern and the pipeline execution. -/
def shuffle_stage_step (keyFn : Rec → Nat) ( output_pattern_prefix : String)
    (st : FS × List String × List Stage) (p : Nat × String) :
    FS × List String × List Stage :=
  let i := p.1
  let filename := p.2
  let input_examples := read_from_tfrecords_files st.1 (pySplit ',' filename)
  let output_examples := shuffle_records keyFn input_examples
  let opp := output_pattern_prefix ++ "_partition" ++ toString i
  (FS.writeFile st.1 (opp ++ "-00000-of-00001.tfrecord.gz")
     (.recs output_examples),
   st.2.1 ++ [opp ++ "-?????-of-?????.tfrecord.gz"],
   st.2.2 ++ [Stage.shuffle i])

/-- The final `with beam.Pipeline()` block of `main`: read back the union
of the intermediate shard sets and write it at the caller-specified
output prefix (no further transform is applied to it), plus the summary
file when a config pbtxt was requested.  Requesting a config pbtxt
without a dataset name raises `ValueError` during pipeline construction,
so the pipeline never runs and nothing is written (the returned state is
the input state).  Result: (state, outcome, the record collection of the
merge pipeline). -/
def merge_pipeline (known : KnownArgs) (fs : FS) (output_patterns : List String) :
    FS × Except String Unit × List Rec :=
  let output_examples := read_from_tfrecords_files fs output_patterns
  if truthyOpt known.output_dataset_config_pbtxt
      && !truthyOpt known.output_dataset_name then
    (fs, .error "Need to set output_dataset_name.", [])
  else
    let fs3 := fs.writeFile
      ( KnownArgs.output_pattern_prefix known ++ "-00000-of-00001.tfrecord.gz")
      (.recs output_examples)
    let fs4 :=
      if truthyOpt known.output_dataset_config_pbtxt then
        fs3.writeFile (known.output_dataset_config_pbtxt.getD "")
          (.text (write_summary_string output_examples known.input_pattern_list
             (known.output_dataset_name.getD "") ( KnownArgs.output_pattern_prefix known)))
      else fs3
    (fs4, .ok (), output_examples)

/-- The body of `main` after the pre-partitioning step: one shuffle
pipeline per input file (the `enumerate` fold over
`shuffle_stage_step`), then the merge pipeline, then — only on its
success, since the `ValueError` would skip it — the cleanup loop
removing every file matching the intermediate shard patterns.  `tr` is
the trace of pipelines already run. -/
def run_stages (keyFn : Rec → Nat) (known : KnownArgs) (fs1 : FS)
    (input_files : List String) (tr : List Stage) : MainResult :=
  let st := input_files.enum.foldl
    (shuffle_stage_step keyFn ( KnownArgs.output_pattern_prefix known))
    (fs1, ([] : List String), tr)
  let fs2 := st.1
  let output_patterns := st.2.1
  let tr2 := st.2.2
  match merge_pipeline known fs2 output_patterns with
  | (fs3, .error e, _) => ⟨tr2, fs3, .error e, []⟩
  | (fs4, .ok _, output_examples) =>
    let fs5 := output_patterns.foldl (fun a pat => a.removeMatching pat) fs4
    ⟨tr2 ++ [Stage.merge], fs5, .ok (), output_examples⟩

/-- `main`: parse the command line; optionally pre-partition (an error
there aborts before any shuffle pipeline); then run the shuffle, merge
and cleanup stages over the resulting input file list.  (The source
function is `main`; that name is reserved by Lean for program entry
points, hence `main_model`.) -/
def main_model (keyFn : Rec → Nat) (digestFn : Rec → List Nat) (argv : KnownArgs)
    (fs0 : FS) : MainResult :=
  match parse_cmdline argv with
  | .error e => ⟨[], fs0, .error e, []⟩
  | .ok known =>
    if known.pre_partition then
      match pre_partition digestFn fs0 (pySplit ',' known.input_pattern_list)
          (known.pre_partition_workdir.getD "") known.num_buckets.toNat with
      | (fs1, .error e) => ⟨[], fs1, .error e, []⟩
      | (fs1, .ok input_files) =>
          run_stages keyFn known fs1 input_files [Stage.prePart]
    else run_stages keyFn known fs0 [known.input_pattern_list] []

/-! ## Helper lemmas -/

theorem foldl_writeFile_dirs {α : Type} (l : List α) (p : α → String)
    (c : α → FileContent) :
    ∀ fs : FS, (l.foldl (fun acc i => FS.writeFile acc (p i) (c i)) fs).dirs
      = fs.dirs := by
  induction l with
  | nil => intro fs; rfl
  | cons x xs ih => intro fs; simpa [FS.writeFile] using ih _

/-! ## Claim theorems -/

/-- C3: `partition(r, num_buckets)` is the digest of `r` — a fixed
4-byte hash, abstracted as `digestFn` since `hashlib.blake2b` is library
code — interpreted as a little-endian unsigned integer (`leNat`) and
reduced modulo `num_buckets`; the result lies in `[0, num_buckets)`, and
for `num_buckets = 1` it is `0`.  (The function is pure, so identical
arguments give identical results on every call.) -/
theorem partition_is_le_digest_mod (digestFn : Rec → List Nat) (r : Rec)
    (num_buckets : Nat) (h : 1 ≤ num_buckets) :
    partition digestFn r num_buckets = leNat (digestFn r) % num_buckets ∧
    partition digestFn r num_buckets < num_buckets ∧
    (num_buckets = 1 → partition digestFn r num_buckets = 0) := by
  refine ⟨?_, ?_, ?_⟩
  · simp [partition, determine_hash, determine_hash_loop_eq_leNat]
  · exact Nat.mod_lt _ (by omega)
  · intro h1; subst h1; simp [partition, Nat.mod_one]

theorem partition_is_le_digest_mod_witness :
    1 ≤ 3 ∧
    (partition (fun _ => [7, 1, 0, 2]) [5, 6] 3 = leNat [7, 1, 0, 2] % 3 ∧
     partition (fun _ => [7, 1, 0, 2]) [5, 6] 3 < 3 ∧
     (3 = 1 → partition (fun _ => [7, 1, 0, 2]) [5, 6] 3 = 0)) :=
  ⟨by decide, partition_is_le_digest_mod (fun _ => [7, 1, 0, 2]) [5, 6] 3 (by decide)⟩

/-- C8: when `--pre_partition` is given, `parse_cmdline` fails if no
working directory was provided or the bucket count is zero or negative,
and succeeds when both checks pass; when `--pre_partition` is not given,
the checks are not applied and parsing succeeds whatever the working
directory and bucket count are. -/
theorem parse_cmdline_validates_pre_partition (a : KnownArgs) :
    (a.pre_partition = true →
       (a.pre_partition_workdir = none ∨ a.num_buckets ≤ 0) →
       (parse_cmdline a).isOk = false) ∧
    (a.pre_partition = true → a.pre_partition_workdir ≠ none →
       0 < a.num_buckets → parse_cmdline a = .ok a) ∧
    (a.pre_partition = false → parse_cmdline a = .ok a) := by
  refine ⟨?_, ?_, ?_⟩
  · intro hp hbad
    rcases hbad with h | h
    · simp [parse_cmdline, hp, h, Except.isOk, Except.toBool]
    · cases hw : a.pre_partition_workdir with
      | none => simp [parse_cmdline, hp, hw, Except.isOk, Except.toBool]
      | some w =>
          simp only [parse_cmdline, hp, hw, if_true]
          simp only [Option.isNone_some, Bool.false_eq_true, if_false]
          rw [if_pos (by omega)]
          rfl
  · intro hp hw hn
    cases hwd : a.pre_partition_workdir with
    | none => exact absurd hwd hw
    | some w =>
        simp only [parse_cmdline, hp, hwd, if_true]
        simp only [Option.isNone_some, Bool.false_eq_true, if_false]
        rw [if_neg (by omega)]
  · intro hp; simp [parse_cmdline, hp]

/-- Fixture: pre-partition requested without a working directory. -/
def c8NoWorkdir : KnownArgs where
  input_pattern_list := "a"
  output_pattern_prefix := "b"
  pre_partition := true

/-- Fixture: pre-partition requested with a negative bucket count. -/
def c8BadBuckets : KnownArgs where
  input_pattern_list := "a"
  output_pattern_prefix := "b"
  pre_partition := true
  pre_partition_workdir := some "w"
  num_buckets := -2

/-- Fixture: pre-partition requested with valid workdir and buckets. -/
def c8Good : KnownArgs where
  input_pattern_list := "a"
  output_pattern_prefix := "b"
  pre_partition := true
  pre_partition_workdir := some "w"
  num_buckets := 4

/-- Fixture: no pre-partition, with arguments that would fail the
pre-partition checks. -/
def c8NoPrePart : KnownArgs where
  input_pattern_list := "a"
  output_pattern_prefix := "b"
  num_buckets := -7

theorem parse_cmdline_validates_pre_partition_witness :
    (parse_cmdline c8NoWorkdir).isOk = false ∧
    (parse_cmdline c8BadBuckets).isOk = false ∧
    parse_cmdline c8Good = .ok c8Good ∧
    parse_cmdline c8NoPrePart = .ok c8NoPrePart := by
  refine ⟨?_, ?_, ?_, ?_⟩
  · exact (parse_cmdline_validates_pre_partition _).1 (by decide) (by decide)
  · exact (parse_cmdline_validates_pre_partition _).1 (by decide) (by decide)
  · exact (parse_cmdline_validates_pre_partition _).2.1 (by decide) (by decide) (by decide)
  · exact (parse_cmdline_validates_pre_partition _).2.2 (by decide)

/-- C4: `pre_partition` invoked on an already-existing working directory
raises the `ValueError` before creating any directory or file — the
returned state is exactly the input state; when the path does not exist,
it creates the working directory and proceeds to return the partition
file list successfully. -/
theorem pre_partition_requires_clean_workdir (digestFn : Rec → List Nat)
    (fs : FS) (input_pattern : List String) (working_directory : String)
    (num_buckets : Nat) :
    (fs.pathExists working_directory = true →
       pre_partition digestFn fs input_pattern working_directory num_buckets
         = (fs, .error "Provide a clean working directory path directory")) ∧
    (fs.pathExists working_directory = false →
       (pre_partition digestFn fs input_pattern working_directory num_buckets).1.dirs
         = fs.dirs ++ [working_directory] ∧
       (pre_partition digestFn fs input_pattern working_directory num_buckets).2.isOk
           = true) := by
  constructor
  · intro h; simp [pre_partition, h]
  · intro h
    constructor
    · simp only [pre_partition, h, Bool.false_eq_true, if_false]
      rw [foldl_writeFile_dirs (List.range num_buckets)
        (fun i => partitionFilePath working_directory i)
        (fun i => FileContent.recs ((read_from_tfrecords_files
          (fs.makedirs working_directory) input_pattern).filter
            (fun r => partition digestFn r num_buckets == i)))]
      rfl
    · simp only [pre_partition, h, Bool.false_eq_true, if_false]
      rfl

theorem pre_partition_requires_clean_workdir_witness :
    ((⟨["wd"], []⟩ : FS).pathExists "wd" = true ∧
      pre_partition (fun _ => [0, 0, 0, 0]) ⟨["wd"], []⟩ ["in"] "wd" 2
        = (⟨["wd"], []⟩, .error "Provide a clean working directory path directory")) ∧
    ((⟨[], []⟩ : FS).pathExists "wd" = false ∧
      (pre_partition (fun _ => [0, 0, 0, 0]) ⟨[], []⟩ ["in"] "wd" 2).1.dirs
        = [] ++ ["wd"] ∧
      (pre_partition (fun _ => [0, 0, 0, 0]) ⟨[], []⟩ ["in"] "wd" 2).2.isOk
        = true) :=
  ⟨⟨by decide,
    (pre_partition_requires_clean_workdir (fun _ => [0, 0, 0, 0]) ⟨["wd"], []⟩
      ["in"] "wd" 2).1 (by decide)⟩,
   ⟨by decide,
    (pre_partition_requires_clean_workdir (fun _ => [0, 0, 0, 0]) ⟨[], []⟩
      ["in"] "wd" 2).2 (by decide)⟩⟩

/-! ## Multiset preservation of the shuffler (C2, C9 machinery) -/

theorem flatMap_filter_keys_perm (ks : List Nat) :
    ∀ m : List (Nat × Rec), ks.Nodup → (∀ p ∈ m, p.1 ∈ ks) →
      (ks.flatMap (fun k => m.filter (fun p => p.1 == k))).Perm m := by
  induction ks with
  | nil =>
      intro m _ hcov
      have : m = [] := by
        cases m with
        | nil => rfl
        | cons p ps => exact absurd (hcov p (List.mem_cons_self p ps)) (by simp)
      simp [this]
  | cons k ks ih =>
      intro m hnd hcov
      rw [List.flatMap_cons]
      have hnd' := List.nodup_cons.mp hnd
      have hstep : ∀ k' ∈ ks,
          m.filter (fun p => p.1 == k')
            = (m.filter (fun p => !(p.1 == k))).filter (fun p => p.1 == k') := by
        intro k' hk'
        rw [List.filter_filter]
        apply List.filter_congr
        intro p _
        cases hpk : (p.1 == k') with
        | false => simp
        | true =>
            have hp : p.1 = k' := by simpa using hpk
            have hkk : ¬ (p.1 == k) = true := by
              simp only [beq_iff_eq, hp]
              intro hEq
              exact hnd'.1 (hEq ▸ hk')
            simp [hpk, hkk]
      have hflat :
          ks.flatMap (fun k' => m.filter (fun p => p.1 == k'))
            = ks.flatMap (fun k' =>
                (m.filter (fun p => !(p.1 == k))).filter (fun p => p.1 == k')) := by
        apply List.flatMap_congr
        intro k' hk'
        exact hstep k' hk'
      have hcov' : ∀ p ∈ m.filter (fun p => !(p.1 == k)), p.1 ∈ ks := by
        intro p hp
        have hmem := List.mem_of_mem_filter hp
        have hne : ¬ (p.1 == k) = true := by
          have := List.of_mem_filter hp
          simpa using this
        have := hcov p hmem
        rcases List.mem_cons.mp this with h | h
        · exact absurd (by simpa using h) (by simpa using hne)
        · exact h
      have ihm := ih (m.filter (fun p => !(p.1 == k))) hnd'.2 hcov'
      rw [hflat]
      exact (List.Perm.append_left (m.filter (fun p => p.1 == k)) ihm).trans
        (List.filter_append_perm (fun p => p.1 == k) m)

/-- The keys enumerated by `groupByKey` are duplicate-free and cover
every key of the input pairs. -/
theorem sortedKeys_nodup_cover (pairs : List (Nat × Rec)) :
    (sortedKeys pairs).Nodup ∧ ∀ p ∈ pairs, p.1 ∈ sortedKeys pairs := by
  constructor
  · exact ((List.perm_insertionSort _ _).nodup_iff).mpr (List.nodup_dedup _)
  · intro p hp
    have : p.1 ∈ (pairs.map Prod.fst).dedup :=
      List.mem_dedup.mpr (List.mem_map_of_mem Prod.fst hp)
    exact ((List.perm_insertionSort _ _).mem_iff).mpr this

/-- `shuffle_records` emits a permutation of its input. -/
theorem shuffle_records_perm (keyFn : Rec → Nat) (xs : List Rec) :
    (shuffle_records keyFn xs).Perm xs := by
  unfold shuffle_records groupByKey
  rw [List.flatMap_map]
  have hswap :
      (sortedKeys (xs.map fun x => (keyFn x, x))).flatMap
          (fun k => ((xs.map fun x => (keyFn x, x)).filter
            (fun p => p.1 == k)).map Prod.snd)
        = ((sortedKeys (xs.map fun x => (keyFn x, x))).flatMap
            (fun k => (xs.map fun x => (keyFn x, x)).filter
              (fun p => p.1 == k))).map Prod.snd := by
    rw [List.map_flatMap]
  rw [hswap]
  have h := sortedKeys_nodup_cover (xs.map fun x => (keyFn x, x))
  have hperm := flatMap_filter_keys_perm (sortedKeys (xs.map fun x => (keyFn x, x)))
    (xs.map fun x => (keyFn x, x)) h.1 h.2
  have hmap := hperm.map Prod.snd
  have hid : List.map (Prod.snd ∘ fun x => ((keyFn x, x) : Nat × Rec)) xs = xs := by
    simp [Function.comp_def]
  rw [List.map_map, hid] at hmap
  exact hmap

/-- C2: for every finite input record multiset (any `sha1`-style key
function, any input list — including the empty list and lists with
byte-for-byte duplicate records), the output of `shuffle_records` as a
multiset equals the input as a multiset: no record lost, none
duplicated, each duplicate-content occurrence preserved as a distinct
occurrence; only the order changes. -/
theorem shuffle_records_multiset_preservation (keyFn : Rec → Nat) (xs : List Rec) :
    ((shuffle_records keyFn xs : List Rec) : Multiset Rec) = (xs : Multiset Rec) :=
  Multiset.coe_eq_coe.mpr (shuffle_records_perm keyFn xs)

/-! ## Contiguity of duplicate records in the shuffler output (C9) -/

/-- All occurrences of `v` in `l` form one consecutive run: after
dropping the prefix without `v`, the leading run of `v`s already has
length `count v l`. -/
def contiguousRun (v : Rec) (l : List Rec) : Bool :=
  ((l.dropWhile (fun x => !(x == v))).takeWhile (fun x => x == v)).length
    == l.count v

theorem dropWhile_append_of_all {α : Type} (p : α → Bool) (l1 l2 : List α)
    (h : ∀ x ∈ l1, p x = true) :
    (l1 ++ l2).dropWhile p = l2.dropWhile p := by
  induction l1 with
  | nil => rfl
  | cons a l ih =>
      have ha := h a (List.mem_cons_self a l)
      simp only [List.cons_append, List.dropWhile_cons, ha, if_true]
      exact ih (fun x hx => h x (List.mem_cons_of_mem a hx))

theorem takeWhile_replicate_append (v : Rec) (post : List Rec)
    (h : ∀ y ∈ post, y ≠ v) : ∀ n : Nat,
    ((List.replicate n v ++ post).takeWhile (fun x => x == v))
      = List.replicate n v := by
  intro n
  induction n with
  | zero =>
      cases post with
      | nil => rfl
      | cons c cs =>
          have hc : (c == v) = false := by
            simpa using h c (List.mem_cons_self c cs)
          simp [List.takeWhile_cons, hc]
  | succ m ih =>
      simp only [List.replicate_succ, List.cons_append, List.takeWhile_cons,
        beq_self_eq_true, if_true, ih]

theorem contiguousRun_of_decomp (v : Rec) (pre post : List Rec) (n : Nat)
    (hpre : ∀ y ∈ pre, y ≠ v) (hpost : ∀ y ∈ post, y ≠ v) :
    contiguousRun v (pre ++ (List.replicate n v ++ post)) = true := by
  unfold contiguousRun
  have hdrop1 : (pre ++ (List.replicate n v ++ post)).dropWhile (fun x => !(x == v))
      = (List.replicate n v ++ post).dropWhile (fun x => !(x == v)) := by
    apply dropWhile_append_of_all
    intro x hx
    simpa using hpre x hx
  rw [hdrop1]
  have hvpre : v ∉ pre := fun hv => (hpre v hv) rfl
  have hvpost : v ∉ post := fun hv => (hpost v hv) rfl
  have hcount : (pre ++ (List.replicate n v ++ post)).count v = n := by
    rw [List.count_append, List.count_append, List.count_replicate_self,
      List.count_eq_zero.mpr hvpre, List.count_eq_zero.mpr hvpost]
    omega
  rw [hcount]
  cases n with
  | zero =>
      have hdrop2 : post.dropWhile (fun x => !(x == v)) = ([] : List Rec) := by
        refine List.dropWhile_eq_nil_iff.mpr ?_
        intro y hy
        simpa using hpost y hy
      rw [List.replicate_zero, List.nil_append, hdrop2]
      rfl
  | succ m =>
      have hdrop2 : (List.replicate (m + 1) v ++ post).dropWhile (fun x => !(x == v))
          = List.replicate (m + 1) v ++ post := by
        rw [List.replicate_succ, List.cons_append, List.dropWhile_cons]
        simp
      rw [hdrop2, takeWhile_replicate_append v post hpost (m + 1),
        List.length_replicate]
      exact beq_self_eq_true (m + 1)

/-- Every value emitted for key `k` by the grouping stage is an input
record whose key is `k`. -/
theorem run_mem_key (keyFn : Rec → Nat) (xs : List Rec) (k : Nat) :
    ∀ y ∈ ((xs.map fun x => (keyFn x, x)).filter (fun p => p.1 == k)).map Prod.snd,
      y ∈ xs ∧ keyFn y = k := by
  intro y hy
  rcases List.mem_map.mp hy with ⟨p, hp, hpy⟩
  rcases List.mem_filter.mp hp with ⟨hpmem, hpk⟩
  rcases List.mem_map.mp hpmem with ⟨x, hx, hxp⟩
  have hyx : y = x := by rw [← hxp] at hpy; exact hpy.symm
  subst hyx
  constructor
  · exact hx
  · have : p.1 = k := by simpa using hpk
    rw [← hxp] at this
    exact this

/-- When the key function is collision-free on the input, the group of
key `keyFn v` consists exactly of the occurrences of `v`. -/
theorem run_of_key_eq_replicate (keyFn : Rec → Nat) (xs : List Rec)
    (hinj : ∀ x ∈ xs, ∀ y ∈ xs, keyFn x = keyFn y → x = y) (v : Rec) (hv : v ∈ xs) :
    ((xs.map fun x => (keyFn x, x)).filter (fun p => p.1 == keyFn v)).map Prod.snd
      = List.replicate (xs.count v) v := by
  rw [List.filter_map, List.map_map]
  have hcomp : List.map (Prod.snd ∘ fun x => ((keyFn x, x) : Nat × Rec))
      (xs.filter ((fun p => p.1 == keyFn v) ∘ fun x => ((keyFn x, x) : Nat × Rec)))
      = xs.filter (fun x => keyFn x == keyFn v) := by
    rw [List.map_congr_left (fun x _ => rfl)]
    · exact List.map_id _
  rw [hcomp]
  have hcong : xs.filter (fun x => keyFn x == keyFn v)
      = xs.filter (fun x => x == v) := by
    apply List.filter_congr
    intro x hx
    cases hk : (keyFn x == keyFn v) with
    | true =>
        have : x = v := hinj x hx v hv (by simpa using hk)
        simp [this]
    | false =>
        cases hxv : (x == v) with
        | false => rfl
        | true =>
            have : x = v := by simpa using hxv
            subst this
            simp at hk
  rw [hcong, List.filter_beq]

/-- Decomposition of the shuffler output around the run of a record `v`
occurring in the input: everything before and after the run differs
from `v`, and the run holds every occurrence of `v`. -/
theorem shuffle_records_run_decomp (keyFn : Rec → Nat) (xs : List Rec)
    (hinj : ∀ x ∈ xs, ∀ y ∈ xs, keyFn x = keyFn y → x = y) (v : Rec) (hv : v ∈ xs) :
    ∃ pre post, shuffle_records keyFn xs
        = pre ++ (List.replicate (xs.count v) v ++ post)
      ∧ (∀ y ∈ pre, y ≠ v) ∧ (∀ y ∈ post, y ≠ v) := by
  have hshuffle : shuffle_records keyFn xs
      = (sortedKeys (xs.map fun x => (keyFn x, x))).flatMap
          (fun k => ((xs.map fun x => (keyFn x, x)).filter
            (fun p => p.1 == k)).map Prod.snd) := by
    unfold shuffle_records groupByKey
    rw [List.flatMap_map]
  obtain ⟨hnd, hcov⟩ := sortedKeys_nodup_cover (xs.map fun x => (keyFn x, x))
  have hkv : keyFn v ∈ sortedKeys (xs.map fun x => (keyFn x, x)) :=
    hcov (keyFn v, v) (List.mem_map_of_mem _ hv)
  obtain ⟨ks1, ks2, hks⟩ := List.append_of_mem hkv
  rw [hks] at hnd
  rw [List.nodup_append] at hnd
  obtain ⟨hn1, hn2, hdisj⟩ := hnd
  have hn2' := List.nodup_cons.mp hn2
  have hkv1 : keyFn v ∉ ks1 := fun hmem => hdisj hmem (List.mem_cons_self _ _)
  have hkv2 : keyFn v ∉ ks2 := hn2'.1
  refine ⟨ks1.flatMap (fun k => ((xs.map fun x => (keyFn x, x)).filter
      (fun p => p.1 == k)).map Prod.snd),
    ks2.flatMap (fun k => ((xs.map fun x => (keyFn x, x)).filter
      (fun p => p.1 == k)).map Prod.snd), ?_, ?_, ?_⟩
  · rw [hshuffle, hks, List.flatMap_append, List.flatMap_cons,
      run_of_key_eq_replicate keyFn xs hinj v hv]
  · intro y hy hyv
    rcases List.mem_flatMap.mp hy with ⟨k, hk, hyk⟩
    have h := run_mem_key keyFn xs k y hyk
    subst hyv
    exact hkv1 (h.2 ▸ hk)
  · intro y hy hyv
    rcases List.mem_flatMap.mp hy with ⟨k, hk, hyk⟩
    have h := run_mem_key keyFn xs k y hyk
    subst hyv
    exact hkv2 (h.2 ▸ hk)

/-- C9: because the grouping key is a function of the record content
alone, all byte-for-byte identical records land under one key and are
emitted as one consecutive run.  `hinj` states that the `sha1`-style key
function has no collision among the input records (the design's
"collisions negligible" premise); `contiguousRun` checks that the
occurrences of `v` in the shuffler output form a single run. -/
theorem shuffle_records_duplicates_contiguous (keyFn : Rec → Nat) (xs : List Rec)
    (hinj : ∀ x ∈ xs, ∀ y ∈ xs, keyFn x = keyFn y → x = y) (v : Rec) :
    contiguousRun v (shuffle_records keyFn xs) = true := by
  by_cases hv : v ∈ xs
  · obtain ⟨pre, post, heq, hpre, hpost⟩ :=
      shuffle_records_run_decomp keyFn xs hinj v hv
    rw [heq]
    exact contiguousRun_of_decomp v pre post _ hpre hpost
  · have hperm := shuffle_records_perm keyFn xs
    have hnot : v ∉ shuffle_records keyFn xs := fun h => hv (hperm.mem_iff.mp h)
    unfold contiguousRun
    rw [List.count_eq_zero.mpr hnot]
    have hdrop : (shuffle_records keyFn xs).dropWhile (fun x => !(x == v)) = [] := by
      refine List.dropWhile_eq_nil_iff.mpr ?_
      intro y hy
      have : y ≠ v := fun h => hnot (h ▸ hy)
      simpa using this
    rw [hdrop]
    rfl

/-- A collision-free key function for the contiguity witness. -/
def c9key : Rec → Nat := fun r => r.headD 0

theorem shuffle_records_duplicates_contiguous_witness :
    contiguousRun [0] (shuffle_records c9key [[0], [1], [0], [1], [0]]) = true :=
  shuffle_records_duplicates_contiguous c9key [[0], [1], [0], [1], [0]]
    (by decide) [0]

/-- C10: with `--pre_partition` unset, `num_buckets` is never consulted:
two invocations differing only in `num_buckets` produce identical
results — same pipelines run, same files written, same outcome, same
merge collection. -/
theorem merge_pipeline_num_buckets_irrelevant (k1 k2 : KnownArgs)
    (h1 : k1.output_dataset_config_pbtxt = k2.output_dataset_config_pbtxt)
    (h2 : k1.output_dataset_name = k2.output_dataset_name)
    (h3 : KnownArgs.output_pattern_prefix k1 = KnownArgs.output_pattern_prefix k2)
    (h4 : k1.input_pattern_list = k2.input_pattern_list) :
    merge_pipeline k1 = merge_pipeline k2 := by
  funext fs pats
  simp only [merge_pipeline, h1, h2, h3, h4]

theorem run_stages_num_buckets_irrelevant (keyFn : Rec → Nat) (k1 k2 : KnownArgs)
    (h1 : k1.output_dataset_config_pbtxt = k2.output_dataset_config_pbtxt)
    (h2 : k1.output_dataset_name = k2.output_dataset_name)
    (h3 : KnownArgs.output_pattern_prefix k1 = KnownArgs.output_pattern_prefix k2)
    (h4 : k1.input_pattern_list = k2.input_pattern_list) :
    run_stages keyFn k1 = run_stages keyFn k2 := by
  funext fs1 input_files tr
  simp only [run_stages, h3,
    merge_pipeline_num_buckets_irrelevant k1 k2 h1 h2 h3 h4]

theorem main_model_ignores_num_buckets (keyFn : Rec → Nat)
    (digestFn : Rec → List Nat) (a : KnownArgs) (fs : FS) (n1 n2 : Int)
    (h : a.pre_partition = false) :
    main_model keyFn digestFn { a with num_buckets := n1 } fs
      = main_model keyFn digestFn { a with num_buckets := n2 } fs := by
  rcases a with ⟨ipl, opp, pbtxt, name, nb, pp, wd, dbg⟩
  simp only at h
  subst h
  have hcongr :
      run_stages keyFn (KnownArgs.mk ipl opp pbtxt name n1 false wd dbg)
        = run_stages keyFn (KnownArgs.mk ipl opp pbtxt name n2 false wd dbg) :=
    run_stages_num_buckets_irrelevant keyFn _ _ rfl rfl rfl rfl
  simp [main_model, parse_cmdline, hcongr]

/-- Fixture arguments without pre-partitioning (for the num_buckets
non-interference witness). -/
def c10args : KnownArgs where
  input_pattern_list := "in10.tfrecord.gz"
  output_pattern_prefix := "out10"

/-- Fixture key function for the non-interference witness. -/
def c10key : Rec → Nat := fun r => r.headD 0

/-- Fixture digest function for the non-interference witness. -/
def c10dig : Rec → List Nat := fun _ => [0, 0, 0, 0]

/-- Fixture filesystem for the non-interference witness. -/
def c10fs : FS := ⟨[], [("in10.tfrecord.gz", .recs [[3], [4]])]⟩

theorem main_model_ignores_num_buckets_witness :
    main_model c10key c10dig { c10args with num_buckets := 5 } c10fs
      = main_model c10key c10dig { c10args with num_buckets := -3 } c10fs :=
  main_model_ignores_num_buckets c10key c10dig c10args c10fs 5 (-3) (by decide)

/-! ## Dedent computation for the config template (C7 machinery) -/

theorem leadingWs_append_stops (x y : List Char) (h : x.all isWsChar = false) :
    leadingWs (x ++ y) = leadingWs x := by
  induction x with
  | nil => simp at h
  | cons c cs ih =>
      cases hc : isWsChar c with
      | false => simp [leadingWs, hc]
      | true =>
          have hcs : cs.all isWsChar = false := by
            simpa [List.all_cons, hc] using h
          simp [leadingWs, hc, ih hcs]

/-- `textwrap.dedent` on the (formatted) config template: the common
four-space margin is stripped from the three content lines, and the
whitespace-only first and last lines become empty. -/
theorem dedent_config_shape (a b c : List Char) :
    dedentLines [[], "    name: \"".data ++ a, "    tfrecord_path: \"".data ++ b,
      "    num_examples: ".data ++ c, "    ".data]
    = [[], "name: \"".data ++ a, "tfrecord_path: \"".data ++ b,
       "num_examples: ".data ++ c, []] := by
  have w0 : isWsOnly ([] : List Char) = true := rfl
  have w4 : isWsOnly "    ".data = true := by decide
  have hall1 : ("    name: \"".data).all isWsChar = false := by decide
  have hall2 : ("    tfrecord_path: \"".data).all isWsChar = false := by decide
  have hall3 : ("    num_examples: ".data).all isWsChar = false := by decide
  have w1 : isWsOnly ("    name: \"".data ++ a) = false := by
    unfold isWsOnly
    rw [List.all_append, hall1, Bool.false_and]
  have w2 : isWsOnly ("    tfrecord_path: \"".data ++ b) = false := by
    unfold isWsOnly
    rw [List.all_append, hall2, Bool.false_and]
  have w3 : isWsOnly ("    num_examples: ".data ++ c) = false := by
    unfold isWsOnly
    rw [List.all_append, hall3, Bool.false_and]
  have lw1 : leadingWs ("    name: \"".data ++ a) = [' ', ' ', ' ', ' '] := by
    rw [leadingWs_append_stops _ _ hall1]; decide
  have lw2 : leadingWs ("    tfrecord_path: \"".data ++ b) = [' ', ' ', ' ', ' '] := by
    rw [leadingWs_append_stops _ _ hall2]; decide
  have lw3 : leadingWs ("    num_examples: ".data ++ c) = [' ', ' ', ' ', ' '] := by
    rw [leadingWs_append_stops _ _ hall3]; decide
  have hm : marginOf [[], "    name: \"".data ++ a,
      "    tfrecord_path: \"".data ++ b, "    num_examples: ".data ++ c,
      "    ".data] = [' ', ' ', ' ', ' '] := by
    unfold marginOf
    simp only [List.filter_cons, List.filter_nil, w0, w1, w2, w3, w4,
      Bool.not_true, Bool.not_false, Bool.false_eq_true, if_false, if_true,
      List.map_cons, List.map_nil, lw1, lw2, lw3]
    decide
  have s1 : stripMargin [' ', ' ', ' ', ' '] ("    name: \"".data ++ a)
      = "name: \"".data ++ a := rfl
  have s2 : stripMargin [' ', ' ', ' ', ' '] ("    tfrecord_path: \"".data ++ b)
      = "tfrecord_path: \"".data ++ b := rfl
  have s3 : stripMargin [' ', ' ', ' ', ' '] ("    num_examples: ".data ++ c)
      = "num_examples: ".data ++ c := rfl
  unfold dedentLines
  rw [hm]
  simp only [List.map_cons, List.map_nil, w0, w1, w2, w3, w4,
    Bool.false_eq_true, if_false, if_true, s1, s2, s3]

/-- The config string, in flat form: a leading newline, then the three
dedented lines (dataset name, output path template with its `?????`
shard placeholders unresolved, record count), newline-terminated. -/
theorem MakeConfigStringCaller_eq (dataset_name tfrecord_path : List Char)
    (num_examples : Nat) :
    MakeConfigStringCaller dataset_name tfrecord_path num_examples
      = "\nname: \"".data ++ dataset_name ++ "\"\ntfrecord_path: \"".data
        ++ tfrecord_path ++ "-?????-of-?????.tfrecord.gz\"\nnum_examples: ".data
        ++ (toString num_examples).data ++ "\n".data := by
  unfold MakeConfigStringCaller configTemplateLines
  rw [show "    name: \"".data ++ dataset_name ++ "\"".data
    = "    name: \"".data ++ (dataset_name ++ "\"".data) from by
      simp [List.append_assoc]]
  rw [show "    tfrecord_path: \"".data ++ tfrecord_path
        ++ "-?????-of-?????.tfrecord.gz\"".data
    = "    tfrecord_path: \"".data
        ++ (tfrecord_path ++ "-?????-of-?????.tfrecord.gz\"".data) from by
      simp [List.append_assoc]]
  rw [dedent_config_shape (dataset_name ++ "\"".data)
    (tfrecord_path ++ "-?????-of-?????.tfrecord.gz\"".data)
    ((toString num_examples).data)]
  simp [joinLines, List.append_assoc]

/-- C7: for every final output collection (any size, including empty),
the summary file consists of the comment header echoing the input
pattern list and output prefix, followed by the config trailer carrying
the dataset name, the output path template with its `?????` shard-count
placeholders unresolved, and a record count computed by the substrate's
global count aggregation (`countGlobally`), which equals the number of
records in the collection.  The newline-freedom hypotheses delimit the
domain on which the line-granular template model coincides with
Python's `format`-then-`dedent`. -/
theorem write_summary_string_header_trailer_count (output_examples : List Rec)
    (input_pattern_list dataset_name output_pattern_prefix : String)
    (hn : '\n' ∉ dataset_name.data) (hp : '\n' ∉ output_pattern_prefix.data) :
    write_summary_string output_examples input_pattern_list dataset_name
        output_pattern_prefix
      = COMMENT_HEADER input_pattern_list output_pattern_prefix
        ++ "\nname: \"".data ++ dataset_name.data ++ "\"\ntfrecord_path: \"".data
        ++ output_pattern_prefix.data
        ++ "-?????-of-?????.tfrecord.gz\"\nnum_examples: ".data
        ++ (toString (countGlobally output_examples)).data ++ "\n".data
    ∧ countGlobally output_examples = output_examples.length := by
  constructor
  · unfold write_summary_string
    simp only [List.cons_append, List.nil_append, List.foldl_cons, List.foldl_nil]
    rw [MakeConfigStringCaller_eq]
    simp [List.append_assoc]
  · rfl

theorem write_summary_string_header_trailer_count_witness :
    write_summary_string [[1], [2], [3]] "in.gz" "HG001" "out"
      = COMMENT_HEADER "in.gz" "out"
        ++ "\nname: \"".data ++ "HG001".data ++ "\"\ntfrecord_path: \"".data
        ++ "out".data
        ++ "-?????-of-?????.tfrecord.gz\"\nnum_examples: ".data
        ++ (toString (countGlobally [[1], [2], [3]])).data ++ "\n".data
    ∧ countGlobally [[1], [2], [3]] = ([[1], [2], [3]] : List Rec).length :=
  write_summary_string_header_trailer_count [[1], [2], [3]] "in.gz" "HG001" "out"
    (by decide) (by decide)

/-! ## Error timing of the missing-dataset-name check (C5) -/

theorem shuffle_fold_no_merge (keyFn : Rec → Nat) (opp : String) :
    ∀ (l : List (Nat × String)) (st : FS × List String × List Stage),
      Stage.merge ∉ st.2.2 →
      Stage.merge ∉ (l.foldl (shuffle_stage_step keyFn opp) st).2.2 := by
  intro l
  induction l with
  | nil => intro st h; exact h
  | cons p ps ih =>
      intro st h
      rw [List.foldl_cons]
      apply ih
      intro hmem
      simp only [shuffle_stage_step] at hmem
      rcases List.mem_append.mp hmem with h1 | h2
      · exact h h1
      · simp at h2

theorem parse_cmdline_ok_eq (a k : KnownArgs) (h : parse_cmdline a = .ok k) :
    k = a := by
  unfold parse_cmdline at h
  split_ifs at h <;> simp_all

theorem run_stages_missing_name (keyFn : Rec → Nat) (known : KnownArgs) (fs1 : FS)
    (input_files : List String) (tr : List Stage)
    (hm : truthyOpt known.output_dataset_config_pbtxt = true)
    (hn : truthyOpt known.output_dataset_name = false)
    (htr : Stage.merge ∉ tr) :
    (run_stages keyFn known fs1 input_files tr).outcome.isOk = false ∧
    Stage.merge ∉ (run_stages keyFn known fs1 input_files tr).trace := by
  have hmerge : ∀ (fs : FS) (pats : List String), merge_pipeline known fs pats
      = (fs, .error "Need to set output_dataset_name.", []) := by
    intro fs pats
    unfold merge_pipeline
    rw [hm, hn]
    simp
  simp only [run_stages, hmerge]
  constructor
  · rfl
  · exact shuffle_fold_no_merge keyFn ( KnownArgs.output_pattern_prefix known) _ _ htr

/-- C5 (amended): whenever a dataset-config pbtxt path is requested
("truthy") but no dataset name is supplied, the run fails with an
uncaught error and the merge pipeline never executes (so no final
output or manifest write happens); however the error is raised only
during construction of the merge pipeline — after the per-partition
shuffle pipelines (and pre-partitioning, if enabled) have already run —
not before all dataflow execution. -/
theorem main_model_missing_dataset_name (keyFn : Rec → Nat)
    (digestFn : Rec → List Nat) (a : KnownArgs) (fs : FS)
    (hm : truthyOpt a.output_dataset_config_pbtxt = true)
    (hn : truthyOpt a.output_dataset_name = false) :
    (main_model keyFn digestFn a fs).outcome.isOk = false ∧
    Stage.merge ∉ (main_model keyFn digestFn a fs).trace := by
  unfold main_model
  cases hpc : parse_cmdline a with
  | error e => exact ⟨rfl, by simp⟩
  | ok known =>
      have hk := parse_cmdline_ok_eq a known hpc
      subst hk
      dsimp only
      by_cases hpp : known.pre_partition
      · rw [if_pos hpp]
        cases hpre : pre_partition digestFn fs (pySplit ',' known.input_pattern_list)
            (known.pre_partition_workdir.getD "") known.num_buckets.toNat with
        | mk fs1 r =>
            cases r with
            | error e => exact ⟨rfl, by simp⟩
            | ok fls =>
                exact run_stages_missing_name keyFn known fs1 fls [Stage.prePart]
                  hm hn (by simp)
      · rw [if_neg hpp]
        exact run_stages_missing_name keyFn known fs [known.input_pattern_list] []
          hm hn (by simp)

/-- Fixture: a manifest path is requested but no dataset name is given. -/
def c5args : KnownArgs where
  input_pattern_list := "in5.tfrecord.gz"
  output_pattern_prefix := "out5"
  output_dataset_config_pbtxt := some "manifest5.txt"

/-- Fixture key function for the C5 run. -/
def c5key : Rec → Nat := fun r => r.headD 0

/-- Fixture digest function for the C5 run. -/
def c5dig : Rec → List Nat := fun _ => [0, 0, 0, 0]

/-- Fixture filesystem holding one input shard for the C5 run. -/
def c5fs : FS := ⟨[], [("in5.tfrecord.gz", .recs [[7]])]⟩

theorem main_model_missing_dataset_name_cex :
    (main_model c5key c5dig c5args c5fs).outcome.isOk = false ∧
    (main_model c5key c5dig c5args c5fs).trace = [Stage.shuffle 0] ∧
    (main_model c5key c5dig c5args c5fs).trace ≠ [] ∧
    (main_model c5key c5dig c5args c5fs).fs.files.map Prod.fst
      = ["in5.tfrecord.gz", "out5_partition0-00000-of-00001.tfrecord.gz"] := by
  decide

theorem main_model_missing_dataset_name_witness :
    (main_model c5key c5dig c5args c5fs).outcome.isOk = false ∧
    Stage.merge ∉ (main_model c5key c5dig c5args c5fs).trace :=
  main_model_missing_dataset_name c5key c5dig c5args c5fs (by decide) (by decide)

/-! ## The merge stage applies no second shuffle (C1) -/

/-- C1 (amended): for every run of the merge pipeline that does not abort
on a missing dataset name, the collection it emits — and writes at the
caller-specified output prefix — is exactly the union of the
intermediate shard sets read back, in read order: the Randomizing
Shuffler is not applied a second time. -/
theorem merge_pipeline_writes_union_directly (known : KnownArgs) (fs : FS)
    (output_patterns : List String)
    (h : (truthyOpt known.output_dataset_config_pbtxt
          && !truthyOpt known.output_dataset_name) = false) :
    (merge_pipeline known fs output_patterns).2.2
        = read_from_tfrecords_files fs output_patterns ∧
    ( KnownArgs.output_pattern_prefix known ++ "-00000-of-00001.tfrecord.gz",
        FileContent.recs (read_from_tfrecords_files fs output_patterns))
      ∈ (merge_pipeline known fs output_patterns).1.files := by
  unfold merge_pipeline
  simp only [h, Bool.false_eq_true, if_false]
  constructor
  · trivial
  · by_cases hc : truthyOpt known.output_dataset_config_pbtxt
    · simp [FS.writeFile, hc]
    · simp [FS.writeFile, hc]

/-- Fixture arguments: two buckets, pre-partitioning enabled. -/
def c1args : KnownArgs where
  input_pattern_list := "in1.tfrecord.gz"
  output_pattern_prefix := "out1"
  pre_partition := true
  pre_partition_workdir := some "wd1"
  num_buckets := 2

/-- Fixture key function: reverses the order of the two records, so a
second shuffle pass would be visible. -/
def c1key : Rec → Nat := fun r => 1 - r.headD 0

/-- Fixture digest function sending record `[b]` to bucket `b`. -/
def c1dig : Rec → List Nat := fun r => [r.headD 0, 0, 0, 0]

/-- Fixture filesystem with one input shard of two records. -/
def c1fs : FS := ⟨[], [("in1.tfrecord.gz", .recs [[0], [1]])]⟩

theorem merge_pipeline_writes_union_directly_cex :
    (main_model c1key c1dig c1args c1fs).outcome.isOk = true ∧
    (main_model c1key c1dig c1args c1fs).mergeInput = [[0], [1]] ∧
    ("out1-00000-of-00001.tfrecord.gz", FileContent.recs [[0], [1]])
      ∈ (main_model c1key c1dig c1args c1fs).fs.files ∧
    shuffle_records c1key [[0], [1]] = [[1], [0]] ∧
    FileContent.recs ([[0], [1]] : List Rec) ≠ FileContent.recs [[1], [0]] := by
  decide

/-- Fixture filesystem for the merge-stage witness: one intermediate
shard set already on disk. -/
def c1merged : FS := ⟨[], [("out1_partition0-00000-of-00001.tfrecord.gz", .recs [[5], [6]])]⟩

theorem merge_pipeline_writes_union_directly_witness :
    (merge_pipeline c1args c1merged ["out1_partition0-?????-of-?????.tfrecord.gz"]).2.2
      = read_from_tfrecords_files c1merged
          ["out1_partition0-?????-of-?????.tfrecord.gz"] ∧
    ("out1" ++ "-00000-of-00001.tfrecord.gz",
        FileContent.recs (read_from_tfrecords_files c1merged
          ["out1_partition0-?????-of-?????.tfrecord.gz"]))
      ∈ (merge_pipeline c1args c1merged
          ["out1_partition0-?????-of-?????.tfrecord.gz"]).1.files :=
  merge_pipeline_writes_union_directly c1args c1merged
    ["out1_partition0-?????-of-?????.tfrecord.gz"] (by decide)

/-! ## Cleanup leaves the hash-partition files behind (C6) -/

/-- Fixture arguments for the cleanup scenario: pre-partitioning into
three buckets. -/
def c6args : KnownArgs where
  input_pattern_list := "in6.tfrecord.gz"
  output_pattern_prefix := "out6"
  pre_partition := true
  pre_partition_workdir := some "wd6"
  num_buckets := 3

/-- C6 (amended): after a successful run with pre-partitioning into
three buckets — for any key function, digest function and input record
list — the per-partition shuffled shard files are removed by cleanup,
but the hash-partition files written into the working directory remain:
the surviving files are exactly the input shard, the three partition
files, and the final output shard. -/
theorem main_model_cleanup_partitions_remain (keyFn : Rec → Nat)
    (digestFn : Rec → List Nat) (R : List Rec) :
    (main_model keyFn digestFn c6args
        ⟨[], [("in6.tfrecord.gz", .recs R)]⟩).outcome.isOk = true ∧
    (main_model keyFn digestFn c6args
        ⟨[], [("in6.tfrecord.gz", .recs R)]⟩).fs.files.map Prod.fst
      = ["in6.tfrecord.gz",
         "wd6/partition0000-00000-of-00001.tfrecord.gz",
         "wd6/partition0001-00000-of-00001.tfrecord.gz",
         "wd6/partition0002-00000-of-00001.tfrecord.gz",
         "out6-00000-of-00001.tfrecord.gz"] := by
  simp [main_model, parse_cmdline, pre_partition, run_stages, shuffle_stage_step,
    merge_pipeline, pySplit, splitChars, FS.pathExists, FS.makedirs, FS.writeFile,
    FS.glob, FS.removeMatching, read_from_tfrecords_files, readTFRecordPattern,
    partitionFilePath, pad4, globMatch, truthyOpt, FileContent.records, c6args,
    List.range_succ, List.enum, List.enumFrom, Except.isOk, Except.toBool]
  decide

/-- Fixture key function for the concrete cleanup run. -/
def c6key : Rec → Nat := fun r => r.headD 0

/-- Fixture digest function sending record `[b]` to bucket `b`. -/
def c6dig : Rec → List Nat := fun r => [r.headD 0, 0, 0, 0]

/-- Fixture filesystem with one input shard of three records. -/
def c6fs : FS := ⟨[], [("in6.tfrecord.gz", .recs [[0], [1], [2]])]⟩

theorem main_model_cleanup_partitions_remain_cex :
    (main_model c6key c6dig c6args c6fs).outcome.isOk = true ∧
    ("wd6/partition0000-00000-of-00001.tfrecord.gz", FileContent.recs [[0]])
      ∈ (main_model c6key c6dig c6args c6fs).fs.files := by
  decide
